import Mathlib

/-!
Verification of the ThreadServices CRUD resource
(`src/services/ThreadServices.ts` of the circle-api repository).

The service is shallowly embedded: the entity store becomes an explicit
`Store` record, each operation becomes a pure function from the request
data and the store to a response, the new store, and a trace of the
repository accesses it issued.  The UUID-format regex used by `findOne`,
`updateOne` and `deleteOne` is embedded as a fixed sequence of character
predicates, one per regex position.
-/

namespace CircleApi

/-! ## The UUID v4 format validator

`/^[a-f\d]{8}-[a-f\d]{4}-4[a-f\d]{3}-[89aAbB][a-f\d]{3}-[a-f\d]{12}$/`
from ThreadServices.ts lines 110, 187 and 230, transcribed character
class by character class.  The regex is anchored at both ends and every
element consumes exactly one character, so matching is equivalent to
checking the i-th character against the i-th class. -/

/-- The character class `[a-f\d]`: lowercase hex letter or digit. -/
def isHexLower (c : Char) : Bool :=
  ('a' ≤ c && c ≤ 'f') || ('0' ≤ c && c ≤ '9')

/-- The literal `-` in the regex. -/
def isDash (c : Char) : Bool := c == '-'

/-- The literal `4` (version nibble) in the regex. -/
def isVer4 (c : Char) : Bool := c == '4'

/-- The character class `[89aAbB]` (variant nibble) in the regex. -/
def isVariant (c : Char) : Bool :=
  c == '8' || c == '9' || c == 'a' || c == 'A' || c == 'b' || c == 'B'

/-- A fixed-length anchored regex is a list of character predicates. -/
def matchPattern : List (Char → Bool) → List Char → Bool
  | [], [] => true
  | p :: ps, c :: cs => p c && matchPattern ps cs
  | _, _ => false

/-- The UUID regex: `{8}-{4}-4{3}-[89aAbB]{3}-{12}` over `[a-f\d]`,
associated to the right so each concatenation step peels one element. -/
def uuidPattern : List (Char → Bool) :=
  List.replicate 8 isHexLower ++ ([isDash] ++
  (List.replicate 4 isHexLower ++ ([isDash] ++
  ([isVer4] ++ (List.replicate 3 isHexLower ++ ([isDash] ++
  ([isVariant] ++ (List.replicate 3 isHexLower ++ ([isDash] ++
  List.replicate 12 isHexLower)))))))))

/-- `regex.test(threadId)` as called by findOne / updateOne / deleteOne. -/
def uuidV4Test (s : String) : Bool := matchPattern uuidPattern s.data

/-- All characters of a group are lowercase hex. -/
def lowerHexGroup (g : List Char) : Prop := ∀ c ∈ g, isHexLower c = true

/-- The claim's description of the UUID v4 textual format: five dash-separated
groups of lengths 8-4-4-4-12 of lowercase hex, the version nibble fixed to
`4` and the variant nibble drawn from `[89aAbB]`. -/
def uuidV4SpecMatch (s : String) : Prop :=
  ∃ g1 g2 g3 g4 g5 : List Char,
    s.data = g1 ++ '-' :: (g2 ++ '-' :: (g3 ++ '-' :: (g4 ++ '-' :: g5))) ∧
    g1.length = 8 ∧ g2.length = 4 ∧ g3.length = 4 ∧ g4.length = 4 ∧
    g5.length = 12 ∧
    lowerHexGroup g1 ∧ lowerHexGroup g2 ∧
    (∃ t3, g3 = '4' :: t3 ∧ lowerHexGroup t3) ∧
    (∃ v t4, g4 = v :: t4 ∧ isVariant v = true ∧ lowerHexGroup t4) ∧
    lowerHexGroup g5

/-! ## Data model

Modelled from the spec: the entity classes (`database/entities/Thread.ts`,
`User.ts`, `Upload.ts`) are not part of the provided source; their fields
follow §3 of the specification (Thread: identifier, text content, optional
image reference, owning user, likes, replies, creation timestamp; User:
identifier, username, full name, profile picture; Upload: a staged file
reference; Like: identifier, owning user). -/

structure UserRow where
  id : String
  username : String
  fullname : String
  profile_picture : Option String
deriving DecidableEq, Repr

structure ThreadRow where
  id : String
  content : String
  image : Option String
  userId : String
  created_at : Nat
deriving DecidableEq, Repr

structure LikeRow where
  id : String
  threadId : String
  userId : String
deriving DecidableEq, Repr

structure ReplyRow where
  id : String
  threadId : String
  userId : String
  content : String
deriving DecidableEq, Repr

structure UploadRow where
  id : String
deriving DecidableEq, Repr

/-- The relational store behind the three repositories, plus a logical
clock that stamps `created_at` on insertion. -/
structure Store where
  users : List UserRow
  threads : List ThreadRow
  likes : List LikeRow
  replies : List ReplyRow
  uploads : List UploadRow
  clock : Nat
deriving DecidableEq, Repr

/-- One repository access, recorded in the order the operation issues it. -/
inductive Ev where
  | userRead (id : String)
  | threadRead (id : String)
  | threadList (skip : Nat)
  | threadWrite (id : String)
  | threadDelete (id : String)
  | uploadDelete (id : String)
deriving DecidableEq, Repr

/-- Payload of a success envelope: a single thread (findOne) or a page of
threads each paired with its reply count (findAll). -/
inductive RespData where
  | thread (t : ThreadRow)
  | threads (ts : List (ThreadRow × Nat))
deriving DecidableEq, Repr

/-- Modelled from the spec: the response envelope `{code, status, message,
data?}` and the error translation done by `handleError` /
`BadRequestError` / `NotFoundError` (files under `src/utils/exception`,
not part of the provided source).  §7: a thrown `BadRequestError` or
`NotFoundError` is surfaced as the corresponding client error; any other
store error is surfaced as a generic server error. -/
inductive Resp where
  | success (code : Nat) (message : String) (data : Option RespData)
  | badRequest (message : String) (title : String)
  | notFound (message : String) (title : String)
  | serverError
deriving DecidableEq, Repr

/-- Result of one operation: the HTTP response, the store afterwards, and
the trace of repository accesses. -/
structure OpResult where
  resp : Resp
  store : Store
  trace : List Ev
deriving DecidableEq, Repr

/-- `ThreadRepository.findOne({where: {id}})`: first row with that id. -/
def findRow : List ThreadRow → String → Option ThreadRow
  | [], _ => none
  | t :: ts, i => if t.id == i then some t else findRow ts i

/-- `UserRepository.findOne({where: {id}})`. -/
def findUser : List UserRow → String → Option UserRow
  | [], _ => none
  | u :: us, i => if u.id == i then some u else findUser us i

/-- `Repository.save(entity)` on a primary-keyed table: overwrite the row
with the entity's id if present, append otherwise. -/
def saveRow (t : ThreadRow) : List ThreadRow → List ThreadRow
  | [] => [t]
  | u :: us => if u.id == t.id then t :: us else u :: saveRow t us

/-- `ThreadRepository.delete(id)`: remove the rows with that primary key. -/
def deleteRow : List ThreadRow → String → List ThreadRow
  | [], _ => []
  | t :: ts, i => if t.id == i then deleteRow ts i else t :: deleteRow ts i

/-- `UploadRepository.delete(id)`. -/
def deleteUpload : List UploadRow → String → List UploadRow
  | [], _ => []
  | u :: us, i => if u.id == i then deleteUpload us i else u :: deleteUpload us i

/-- JS truthiness of an optional string body field (`if (image)`,
`if (uploadId)`): `undefined` and the empty string are falsy. -/
def truthy : Option String → Bool
  | none => false
  | some s => !(s == "")

namespace ThreadServices

/-- The request body of `add`: `const { content, image, uploadId } = req.body`. -/
structure AddBody where
  content : String
  image : Option String
  uploadId : Option String
deriving DecidableEq, Repr

/-- The Thread entity built by `add` (lines 37-41): fresh id from
`uuidv4()`, the posted content, the posted image only when truthy, the
resolved user as owner, and the insertion-time `created_at` stamp. -/
def newThread (body : AddBody) (newId userId : String) (clock : Nat) : ThreadRow :=
  { id := newId, content := body.content,
    image := if truthy body.image then body.image else none,
    userId := userId, created_at := clock }

/-- `ThreadServices.add` (lines 20-53).  `authUserId` is
`res.locals.auth.id`, `newId` the value returned by `uuidv4()`, and
`uploadDeleteOk` is false when the Upload delete throws a store error
(which the catch block hands to `handleError`). -/
def add (authUserId : String) (body : AddBody) (newId : String)
    (uploadDeleteOk : Bool) (st : Store) : OpResult :=
  match findUser st.users authUserId with
  | none =>
    ⟨Resp.notFound ("User with ID " ++ authUserId ++ " not found") "User Not Found",
      st, [Ev.userRead authUserId]⟩
  | some user =>
    let row := newThread body newId user.id st.clock
    let st1 : Store :=
      { st with threads := saveRow row st.threads, clock := st.clock + 1 }
    match body.uploadId with
    | some u =>
      if u == "" then
        ⟨Resp.success 201 "Add Thread Success" none, st1,
          [Ev.userRead authUserId, Ev.threadWrite newId]⟩
      else if uploadDeleteOk then
        ⟨Resp.success 201 "Add Thread Success" none,
          { st1 with uploads := deleteUpload st1.uploads u },
          [Ev.userRead authUserId, Ev.threadWrite newId, Ev.uploadDelete u]⟩
      else
        ⟨Resp.serverError, st1,
          [Ev.userRead authUserId, Ev.threadWrite newId, Ev.uploadDelete u]⟩
    | none =>
      ⟨Resp.success 201 "Add Thread Success" none, st1,
        [Ev.userRead authUserId, Ev.threadWrite newId]⟩

/-- JS whitespace skipped by `parseInt` before the number. -/
def isJsSpace (c : Char) : Bool :=
  c == ' ' || c == '\t' || c == '\n' || c == '\r'

/-- Decimal value of a digit run. -/
def digitsToNat (ds : List Char) : Nat :=
  ds.foldl (fun a c => a * 10 + (c.toNat - 48)) 0

/-- `parseInt(s, 10)`: skip leading whitespace, take an optional sign,
then the longest run of decimal digits; `none` models `NaN` (no digits). -/
def jsParseInt (s : String) : Option Int :=
  let cs := s.data.dropWhile isJsSpace
  let sign : Int :=
    match cs with
    | '-' :: _ => -1
    | _ => 1
  let cs2 :=
    match cs with
    | '-' :: r => r
    | '+' :: r => r
    | r => r
  let ds := cs2.takeWhile Char.isDigit
  if ds.isEmpty then none else some (sign * digitsToNat ds)

/-- The `page` query parameter as the framework delivers it: absent, a
string, or some non-string value (array / nested object). -/
inductive PageQuery where
  | missing
  | str (s : String)
  | other
deriving DecidableEq, Repr

/-- Lines 57-58: `typeof req.query.page === "string" ? parseInt(req.query.page, 10) : 1`.
`none` models `NaN`. -/
def rawPage : PageQuery → Option Int
  | PageQuery.str s => jsParseInt s
  | _ => some 1

/-- Line 59: `page = page > 1 ? page : 1`.  `NaN > 1` is false, so the
`NaN` case falls through the same comparison to 1. -/
def clampPage : Option Int → Int
  | some v => if v > 1 then v else 1
  | none => 1

def pageOf (q : PageQuery) : Int := clampPage (rawPage q)

/-- Insertion into a list sorted by `created_at` descending. -/
def insertDesc (t : ThreadRow) : List ThreadRow → List ThreadRow
  | [] => [t]
  | u :: us =>
    if u.created_at ≤ t.created_at then t :: u :: us else u :: insertDesc t us

/-- `order: { created_at: "DESC" }` of the find call. -/
def sortDesc : List ThreadRow → List ThreadRow
  | [] => []
  | t :: ts => insertDesc t (sortDesc ts)

/-- `thread.replies.length`: the reply count substituted into the findAll
projection. -/
def replyCount (st : Store) (threadId : String) : Nat :=
  (st.replies.filter (fun r => r.threadId == threadId)).length

/-- `ThreadServices.findAll` (lines 55-103): one page of 10 threads
ordered by `created_at` descending with `skip: page * 10 - 10`, each
mapped to `{...thread, replies: thread.replies.length}`. -/
def findAll (q : PageQuery) (st : Store) : OpResult :=
  let page := pageOf q
  let skip : Nat := (page * 10 - 10).toNat
  let ts := ((sortDesc st.threads).drop skip).take 10
  ⟨Resp.success 200 "Find All Thread Success"
      (some (RespData.threads (ts.map (fun t => (t, replyCount st t.id))))),
    st, [Ev.threadList skip]⟩

/-- The `BadRequestError` thrown on a malformed id (lines 114-117). -/
def uuidErrorResp : Resp :=
  Resp.badRequest "The sent ID is not a valid UUID format" "UUID Error"

/-- The `NotFoundError` thrown when no thread has the id (lines 165-168). -/
def threadNotFoundResp (threadId : String) : Resp :=
  Resp.notFound ("Thread with ID " ++ threadId ++ " not found") "Thread Not Found"

/-- `ThreadServices.findOne` (lines 105-180): regex check, then fetch. -/
def findOne (threadId : String) (st : Store) : OpResult :=
  if uuidV4Test threadId then
    match findRow st.threads threadId with
    | none => ⟨threadNotFoundResp threadId, st, [Ev.threadRead threadId]⟩
    | some t =>
      ⟨Resp.success 200 "Find One Thread Success" (some (RespData.thread t)),
        st, [Ev.threadRead threadId]⟩
  else
    ⟨uuidErrorResp, st, []⟩

/-- `ThreadServices.updateOne` (lines 182-223): regex check, fetch,
overwrite `content` on the fetched row, save it back. -/
def updateOne (threadId content : String) (st : Store) : OpResult :=
  if uuidV4Test threadId then
    match findRow st.threads threadId with
    | none => ⟨threadNotFoundResp threadId, st, [Ev.threadRead threadId]⟩
    | some t =>
      ⟨Resp.success 200 "Update One Thread Success" none,
        { st with threads := saveRow { t with content := content } st.threads },
        [Ev.threadRead threadId, Ev.threadWrite threadId]⟩
  else
    ⟨uuidErrorResp, st, []⟩

/-- `ThreadServices.deleteOne` (lines 225-263): regex check, fetch, then
physical delete by primary key. -/
def deleteOne (threadId : String) (st : Store) : OpResult :=
  if uuidV4Test threadId then
    match findRow st.threads threadId with
    | none => ⟨threadNotFoundResp threadId, st, [Ev.threadRead threadId]⟩
    | some _ =>
      ⟨Resp.success 200 "Delete One Thread Success" none,
        { st with threads := deleteRow st.threads threadId },
        [Ev.threadRead threadId, Ev.threadDelete threadId]⟩
  else
    ⟨uuidErrorResp, st, []⟩

end ThreadServices

/-! ## Concrete fixtures used by the witnesses -/

def validId : String := "aaaaaaaa-aaaa-4aaa-8aaa-aaaaaaaaaaaa"

def sampleUser : UserRow := ⟨"u1", "andry", "Andry P", none⟩

def sampleThread : ThreadRow := ⟨validId, "old content", none, "u1", 0⟩

def emptyStore : Store := ⟨[], [], [], [], [], 0⟩

def userStore : Store := ⟨[sampleUser], [], [], [], [], 0⟩

def threadStore : Store := ⟨[sampleUser], [sampleThread], [], [], [], 1⟩

/-- Does an event delete an Upload row? -/
def isUploadDel : Ev → Bool
  | Ev.uploadDelete _ => true
  | _ => false

theorem matchPattern_nil_iff (cs : List Char) :
    matchPattern [] cs = true ↔ cs = [] := by
  cases cs <;> simp [matchPattern]

theorem matchPattern_cons_iff (p : Char → Bool) (ps : List (Char → Bool))
    (cs : List Char) :
    matchPattern (p :: ps) cs = true ↔
      ∃ c cs₂, cs = c :: cs₂ ∧ p c = true ∧ matchPattern ps cs₂ = true := by
  cases cs with
  | nil => simp [matchPattern]
  | cons c cs₂ =>
    simp only [matchPattern, Bool.and_eq_true]
    constructor
    · rintro ⟨h1, h2⟩
      exact ⟨c, cs₂, rfl, h1, h2⟩
    · rintro ⟨c', cs', heq, h1, h2⟩
      injection heq with he1 he2
      subst he1
      subst he2
      exact ⟨h1, h2⟩

theorem matchPattern_singleton_iff (p : Char → Bool) (cs : List Char) :
    matchPattern [p] cs = true ↔ ∃ c, cs = [c] ∧ p c = true := by
  rw [matchPattern_cons_iff]
  constructor
  · rintro ⟨c, cs₂, rfl, hpc, h2⟩
    rw [matchPattern_nil_iff] at h2
    subst h2
    exact ⟨c, rfl, hpc⟩
  · rintro ⟨c, rfl, hpc⟩
    exact ⟨c, [], rfl, hpc, rfl⟩

theorem matchPattern_append_iff (ps qs : List (Char → Bool)) (cs : List Char) :
    matchPattern (ps ++ qs) cs = true ↔
      ∃ as bs, cs = as ++ bs ∧ matchPattern ps as = true ∧
        matchPattern qs bs = true := by
  induction ps generalizing cs with
  | nil =>
    constructor
    · intro h
      exact ⟨[], cs, rfl, rfl, h⟩
    · rintro ⟨as, bs, rfl, ha, hb⟩
      rw [matchPattern_nil_iff] at ha
      subst ha
      simpa using hb
  | cons p ps ih =>
    constructor
    · intro h
      rw [List.cons_append, matchPattern_cons_iff] at h
      obtain ⟨c, cs₂, rfl, hpc, h2⟩ := h
      obtain ⟨as, bs, rfl, ha, hb⟩ := (ih cs₂).mp h2
      refine ⟨c :: as, bs, rfl, ?_, hb⟩
      rw [matchPattern_cons_iff]
      exact ⟨c, as, rfl, hpc, ha⟩
    · rintro ⟨as, bs, rfl, ha, hb⟩
      rw [matchPattern_cons_iff] at ha
      obtain ⟨c, as₂, rfl, hpc, ha₂⟩ := ha
      rw [List.cons_append, List.cons_append, matchPattern_cons_iff]
      exact ⟨c, as₂ ++ bs, rfl, hpc, (ih _).mpr ⟨as₂, bs, rfl, ha₂, hb⟩⟩

theorem matchPattern_append_of (ps qs : List (Char → Bool)) (as bs : List Char)
    (ha : matchPattern ps as = true) (hb : matchPattern qs bs = true) :
    matchPattern (ps ++ qs) (as ++ bs) = true :=
  (matchPattern_append_iff ps qs (as ++ bs)).mpr ⟨as, bs, rfl, ha, hb⟩

theorem matchPattern_replicate_iff (n : Nat) (p : Char → Bool) (cs : List Char) :
    matchPattern (List.replicate n p) cs = true ↔
      cs.length = n ∧ ∀ c ∈ cs, p c = true := by
  induction n generalizing cs with
  | zero =>
    rw [List.replicate_zero, matchPattern_nil_iff]
    constructor
    · rintro rfl
      exact ⟨rfl, by intro c hc; cases hc⟩
    · rintro ⟨h, _⟩
      exact List.length_eq_zero.mp h
  | succ n ih =>
    rw [List.replicate_succ, matchPattern_cons_iff]
    constructor
    · rintro ⟨c, cs₂, rfl, hpc, h2⟩
      obtain ⟨hl, hall⟩ := (ih cs₂).mp h2
      refine ⟨by simp [hl], ?_⟩
      intro d hd
      rcases List.mem_cons.mp hd with rfl | hd
      · exact hpc
      · exact hall d hd
    · rintro ⟨hl, hall⟩
      cases cs with
      | nil => simp at hl
      | cons c cs₂ =>
        refine ⟨c, cs₂, rfl, hall c (List.mem_cons_self c cs₂),
          (ih cs₂).mpr ⟨by simpa using hl, ?_⟩⟩
        intro d hd
        exact hall d (List.mem_cons_of_mem c hd)

theorem isDash_iff (c : Char) : isDash c = true ↔ c = '-' := by
  simp [isDash]

theorem isVer4_iff (c : Char) : isVer4 c = true ↔ c = '4' := by
  simp [isVer4]

/-- C1: the identifier format validator used by findOne, updateOne and
deleteOne accepts a string exactly when it is a dash-separated 8-4-4-4-12
lowercase-hex string with version nibble `4` and variant nibble in
`[89aAbB]` — i.e. exactly the language of the regex
`^[a-f\d]{8}-[a-f\d]{4}-4[a-f\d]{3}-[89aAbB][a-f\d]{3}-[a-f\d]{12}$`. -/
theorem uuidV4Test_iff_specMatch (s : String) :
    uuidV4Test s = true ↔ uuidV4SpecMatch s := by
  unfold uuidV4Test uuidPattern
  constructor
  · intro h
    rw [matchPattern_append_iff] at h
    obtain ⟨x, bs, hx, h1, h⟩ := h
    rw [matchPattern_append_iff] at h
    obtain ⟨d1, bs, rfl, hd1, h⟩ := h
    rw [matchPattern_append_iff] at h
    obtain ⟨g2, bs, rfl, h2, h⟩ := h
    rw [matchPattern_append_iff] at h
    obtain ⟨d2, bs, rfl, hd2, h⟩ := h
    rw [matchPattern_append_iff] at h
    obtain ⟨v3, bs, rfl, hv3, h⟩ := h
    rw [matchPattern_append_iff] at h
    obtain ⟨t3, bs, rfl, h3, h⟩ := h
    rw [matchPattern_append_iff] at h
    obtain ⟨d3, bs, rfl, hd3, h⟩ := h
    rw [matchPattern_append_iff] at h
    obtain ⟨v4, bs, rfl, hv4, h⟩ := h
    rw [matchPattern_append_iff] at h
    obtain ⟨t4, bs, rfl, h4, h⟩ := h
    rw [matchPattern_append_iff] at h
    obtain ⟨d4, g5, rfl, hd4, h5⟩ := h
    rw [matchPattern_singleton_iff] at hd1 hd2 hd3 hd4 hv3 hv4
    obtain ⟨c1, rfl, hc1⟩ := hd1
    obtain ⟨c2, rfl, hc2⟩ := hd2
    obtain ⟨c3, rfl, hc3⟩ := hd3
    obtain ⟨c4, rfl, hc4⟩ := hd4
    obtain ⟨cv3, rfl, hcv3⟩ := hv3
    obtain ⟨cv4, rfl, hcv4⟩ := hv4
    rw [isDash_iff] at hc1 hc2 hc3 hc4
    subst hc1; subst hc2; subst hc3; subst hc4
    rw [isVer4_iff] at hcv3
    subst hcv3
    rw [matchPattern_replicate_iff] at h1 h2 h3 h4 h5
    refine ⟨x, g2, '4' :: t3, cv4 :: t4, g5, ?_, h1.1, h2.1, ?_, ?_, h5.1,
      h1.2, h2.2, ⟨t3, rfl, h3.2⟩, ⟨cv4, t4, rfl, hcv4, h4.2⟩, h5.2⟩
    · rw [hx]
      simp [List.append_assoc]
    · simp [h3.1]
    · simp [h4.1]
  · rintro ⟨g1, g2, g3, g4, g5, heq, hl1, hl2, hl3, hl4, hl5, hh1, hh2,
      ⟨t3, rfl, hh3⟩, ⟨v, t4, rfl, hv, hh4⟩, hh5⟩
    rw [heq]
    have e3 : t3.length = 3 := by simpa using hl3
    have e4 : t4.length = 3 := by simpa using hl4
    refine matchPattern_append_of _ _ g1 _
      ((matchPattern_replicate_iff _ _ _).mpr ⟨hl1, hh1⟩) ?_
    refine matchPattern_append_of _ _ ['-'] _ (by rfl) ?_
    refine matchPattern_append_of _ _ g2 _
      ((matchPattern_replicate_iff _ _ _).mpr ⟨hl2, hh2⟩) ?_
    refine matchPattern_append_of _ _ ['-'] _ (by rfl) ?_
    refine matchPattern_append_of _ _ ['4'] _ (by rfl) ?_
    refine matchPattern_append_of _ _ t3 _
      ((matchPattern_replicate_iff _ _ _).mpr ⟨e3, hh3⟩) ?_
    refine matchPattern_append_of _ _ ['-'] _ (by rfl) ?_
    refine matchPattern_append_of _ _ [v] _
      (by simp [matchPattern, hv]) ?_
    refine matchPattern_append_of _ _ t4 _
      ((matchPattern_replicate_iff _ _ _).mpr ⟨e4, hh4⟩) ?_
    exact matchPattern_append_of _ _ ['-'] g5 (by rfl)
      ((matchPattern_replicate_iff _ _ _).mpr ⟨hl5, hh5⟩)

/-! ## Store lemmas -/

theorem findRow_id (rows : List ThreadRow) (i : String) (t : ThreadRow)
    (h : findRow rows i = some t) : t.id = i := by
  induction rows with
  | nil => simp [findRow] at h
  | cons u us ih =>
    rw [findRow] at h
    cases hc : u.id == i with
    | true =>
      rw [hc] at h
      simp at h
      subst h
      exact eq_of_beq hc
    | false =>
      rw [hc] at h
      simp at h
      exact ih h

theorem findRow_saveRow_self (rows : List ThreadRow) (t : ThreadRow) :
    findRow (saveRow t rows) t.id = some t := by
  induction rows with
  | nil => simp [saveRow, findRow]
  | cons u us ih =>
    rw [saveRow]
    cases hc : u.id == t.id with
    | true => simp [findRow]
    | false => simp [findRow, hc, ih]

theorem findRow_saveRow_ne (rows : List ThreadRow) (t : ThreadRow) (i : String)
    (h : i ≠ t.id) : findRow (saveRow t rows) i = findRow rows i := by
  have hti : (t.id == i) = false := beq_eq_false_iff_ne.mpr fun he => h he.symm
  induction rows with
  | nil => simp [saveRow, findRow, hti]
  | cons u us ih =>
    rw [saveRow]
    cases hc : u.id == t.id with
    | true =>
      have hui : (u.id == i) = false := by
        rw [eq_of_beq hc]
        exact hti
      simp [findRow, hti, hui]
    | false =>
      cases hu : u.id == i with
      | true => simp [findRow, hu]
      | false => simp [findRow, hu, ih]

theorem findRow_deleteRow_self (rows : List ThreadRow) (i : String) :
    findRow (deleteRow rows i) i = none := by
  induction rows with
  | nil => simp [deleteRow, findRow]
  | cons u us ih =>
    rw [deleteRow]
    cases hc : u.id == i with
    | true => simp [hc, ih]
    | false => simp [hc, findRow, ih]

theorem findRow_deleteRow_ne (rows : List ThreadRow) (i j : String)
    (h : j ≠ i) : findRow (deleteRow rows i) j = findRow rows j := by
  induction rows with
  | nil => simp [deleteRow]
  | cons u us ih =>
    rw [deleteRow]
    cases hc : u.id == i with
    | true =>
      have huj : (u.id == j) = false := by
        rw [eq_of_beq hc]
        exact beq_eq_false_iff_ne.mpr fun he => h he.symm
      simp [findRow, huj, ih]
    | false =>
      cases hu : u.id == j with
      | true => simp [findRow, hu]
      | false => simp [findRow, hu, ih]

theorem mem_deleteRow (rows : List ThreadRow) (i : String) (r : ThreadRow)
    (h : r ∈ deleteRow rows i) : r ∈ rows ∧ r.id ≠ i := by
  induction rows with
  | nil => simp [deleteRow] at h
  | cons u us ih =>
    rw [deleteRow] at h
    cases hc : u.id == i with
    | true =>
      rw [hc] at h
      simp at h
      obtain ⟨h1, h2⟩ := ih h
      exact ⟨List.mem_cons_of_mem u h1, h2⟩
    | false =>
      rw [hc] at h
      simp at h
      rcases h with he | h
      · rw [he]
        refine ⟨List.mem_cons_self _ _, ?_⟩
        rw [beq_eq_false_iff_ne] at hc
        exact hc
      · obtain ⟨h1, h2⟩ := ih h
        exact ⟨List.mem_cons_of_mem u h1, h2⟩

theorem saveRow_decomp (rows : List ThreadRow) (i : String) (t row : ThreadRow)
    (hf : findRow rows i = some t) (hid : row.id = t.id) :
    ∃ pre post, rows = pre ++ t :: post ∧
      saveRow row rows = pre ++ row :: post := by
  induction rows with
  | nil => simp [findRow] at hf
  | cons u us ih =>
    rw [findRow] at hf
    cases hc : u.id == i with
    | true =>
      rw [hc] at hf
      simp at hf
      subst hf
      refine ⟨[], us, rfl, ?_⟩
      have : (u.id == row.id) = true := beq_iff_eq.mpr (by rw [hid])
      simp [saveRow, this]
    | false =>
      rw [hc] at hf
      simp at hf
      obtain ⟨pre, post, h1, h2⟩ := ih hf
      have hti : t.id = i := findRow_id us i t hf
      have hur : (u.id == row.id) = false := by
        rw [beq_eq_false_iff_ne, hid, hti]
        intro he
        rw [beq_eq_false_iff_ne] at hc
        exact hc he
      refine ⟨u :: pre, post, by rw [List.cons_append, h1], ?_⟩
      simp [saveRow, hur, h2]

/-! ## Sort lemmas -/

namespace ThreadServices

theorem mem_insertDesc (t x : ThreadRow) (l : List ThreadRow) :
    x ∈ insertDesc t l ↔ x = t ∨ x ∈ l := by
  induction l with
  | nil => simp [insertDesc]
  | cons u us ih =>
    rw [insertDesc]
    by_cases hc : u.created_at ≤ t.created_at
    · rw [if_pos hc]
      simp [List.mem_cons]
    · rw [if_neg hc]
      simp [List.mem_cons, ih]
      tauto

theorem pairwise_insertDesc (t : ThreadRow) (l : List ThreadRow)
    (h : l.Pairwise (fun a b => b.created_at ≤ a.created_at)) :
    (insertDesc t l).Pairwise (fun a b => b.created_at ≤ a.created_at) := by
  induction l with
  | nil => simp [insertDesc]
  | cons u us ih =>
    rw [insertDesc]
    rw [List.pairwise_cons] at h
    by_cases hc : u.created_at ≤ t.created_at
    · rw [if_pos hc, List.pairwise_cons]
      constructor
      · intro x hx
        rcases List.mem_cons.mp hx with rfl | hx
        · exact hc
        · exact (h.1 x hx).trans hc
      · rw [List.pairwise_cons]
        exact h
    · rw [if_neg hc, List.pairwise_cons]
      constructor
      · intro x hx
        rcases (mem_insertDesc t x us).mp hx with rfl | hx
        · exact Nat.le_of_lt (Nat.lt_of_not_le hc)
        · exact h.1 x hx
      · exact ih h.2

theorem pairwise_sortDesc (l : List ThreadRow) :
    (sortDesc l).Pairwise (fun a b => b.created_at ≤ a.created_at) := by
  induction l with
  | nil => simp [sortDesc]
  | cons t ts ih => exact pairwise_insertDesc t _ ih

theorem add_threads (a : String) (b : AddBody) (n : String) (ok : Bool)
    (st : Store) (u : UserRow) (hu : findUser st.users a = some u) :
    (add a b n ok st).store.threads =
      saveRow (newThread b n u.id st.clock) st.threads := by
  rw [add, hu]
  cases b.uploadId with
  | none => rfl
  | some v =>
    cases hv : v == "" with
    | true => simp [hv]
    | false => cases ok <;> simp [hv]

end ThreadServices

/-! ## The claims -/

open ThreadServices

/-- C2: for every string that fails the UUID v4 pattern, each of findOne,
updateOne and deleteOne returns the BadRequest error, leaves the store
unchanged, and issues no repository access at all (empty trace). -/
theorem malformed_id_rejected (tid : String) (h : uuidV4Test tid = false) :
    ∀ (st : Store) (c : String),
      findOne tid st = ⟨uuidErrorResp, st, []⟩ ∧
      updateOne tid c st = ⟨uuidErrorResp, st, []⟩ ∧
      deleteOne tid st = ⟨uuidErrorResp, st, []⟩ ∧
      uuidErrorResp =
        Resp.badRequest "The sent ID is not a valid UUID format" "UUID Error" := by
  intro st c
  refine ⟨?_, ?_, ?_, rfl⟩ <;> simp [findOne, updateOne, deleteOne, h]

/-- Witness for C2 at the malformed id `"not-a-uuid"` and a concrete store. -/
theorem malformed_id_rejected_witness :
    uuidV4Test "not-a-uuid" = false ∧
    (findOne "not-a-uuid" threadStore = ⟨uuidErrorResp, threadStore, []⟩ ∧
     updateOne "not-a-uuid" "x" threadStore = ⟨uuidErrorResp, threadStore, []⟩ ∧
     deleteOne "not-a-uuid" threadStore = ⟨uuidErrorResp, threadStore, []⟩ ∧
     uuidErrorResp =
       Resp.badRequest "The sent ID is not a valid UUID format" "UUID Error") :=
  ⟨by rfl, malformed_id_rejected "not-a-uuid" (by rfl) threadStore "x"⟩

/-- C3: on a well-formed UUID v4 id that no Thread row carries, updateOne
and deleteOne return the NotFound error and leave the store unchanged. -/
theorem unassigned_id_not_found (tid : String) (st : Store)
    (hv : uuidV4Test tid = true) (hf : findRow st.threads tid = none) :
    (∀ c, updateOne tid c st =
      ⟨threadNotFoundResp tid, st, [Ev.threadRead tid]⟩) ∧
    deleteOne tid st = ⟨threadNotFoundResp tid, st, [Ev.threadRead tid]⟩ := by
  constructor
  · intro c
    simp [updateOne, hv, hf]
  · simp [deleteOne, hv, hf]

/-- Witness for C3 at a concrete well-formed id and the empty store. -/
theorem unassigned_id_not_found_witness :
    uuidV4Test validId = true ∧
    findRow emptyStore.threads validId = none ∧
    ((∀ c, updateOne validId c emptyStore =
        ⟨threadNotFoundResp validId, emptyStore, [Ev.threadRead validId]⟩) ∧
      deleteOne validId emptyStore =
        ⟨threadNotFoundResp validId, emptyStore, [Ev.threadRead validId]⟩) :=
  ⟨by rfl, by rfl, unassigned_id_not_found validId emptyStore (by rfl) (by rfl)⟩

/-- C6: when `authUserId` resolves to no User, add returns the NotFound
error, touches nothing (the whole store, in particular the Thread table,
is unchanged), and its only repository access is the User read. -/
theorem add_user_not_found (a : String) (b : AddBody) (n : String)
    (ok : Bool) (st : Store) (hu : findUser st.users a = none) :
    add a b n ok st =
      ⟨Resp.notFound ("User with ID " ++ a ++ " not found") "User Not Found",
        st, [Ev.userRead a]⟩ := by
  rw [add, hu]

/-- Witness for C6 at a concrete unknown user id and the empty store. -/
theorem add_user_not_found_witness :
    findUser emptyStore.users "ghost" = none ∧
    add "ghost" ⟨"hi", none, none⟩ validId true emptyStore =
      ⟨Resp.notFound ("User with ID " ++ "ghost" ++ " not found") "User Not Found",
        emptyStore, [Ev.userRead "ghost"]⟩ :=
  ⟨by rfl, add_user_not_found "ghost" ⟨"hi", none, none⟩ validId true emptyStore (by rfl)⟩

/-- C4: findAll returns at most 10 threads, ordered by `created_at`
descending, taken at offset `(page - 1) * 10` after clamping; the page
defaults to 1, any parsed value ≤ 1 clamps to 1, and `page=0` and
`page=1` give identical results on the same store. -/
theorem findAll_paging (q : PageQuery) (st : Store) :
    (∃ ts, (findAll q st).resp =
        Resp.success 200 "Find All Thread Success" (some (RespData.threads ts)) ∧
      ts = (((sortDesc st.threads).drop ((pageOf q - 1) * 10).toNat).take 10).map
          (fun t => (t, replyCount st t.id)) ∧
      ts.length ≤ 10 ∧
      (ts.map Prod.fst).Pairwise (fun a b => b.created_at ≤ a.created_at)) ∧
    1 ≤ pageOf q ∧
    pageOf PageQuery.missing = 1 ∧
    (∀ v : Int, rawPage q = some v → v ≤ 1 → pageOf q = 1) ∧
    findAll (PageQuery.str "0") st = findAll (PageQuery.str "1") st := by
  have hoff : pageOf q * 10 - 10 = (pageOf q - 1) * 10 := by ring
  refine ⟨⟨(((sortDesc st.threads).drop ((pageOf q - 1) * 10).toNat).take 10).map
      (fun t => (t, replyCount st t.id)), ?_, rfl, ?_, ?_⟩, ?_, rfl, ?_, rfl⟩
  · simp only [findAll, hoff]
  · simp only [List.length_map, List.length_take]
    omega
  · have hmap : ((((sortDesc st.threads).drop ((pageOf q - 1) * 10).toNat).take 10).map
        (fun t => (t, replyCount st t.id))).map Prod.fst =
        ((sortDesc st.threads).drop ((pageOf q - 1) * 10).toNat).take 10 := by
      rw [List.map_map]
      have hcomp : (Prod.fst ∘ fun t : ThreadRow => (t, replyCount st t.id)) =
          id := rfl
      rw [hcomp, List.map_id]
    rw [hmap]
    exact List.Pairwise.sublist
      ((List.take_sublist _ _).trans (List.drop_sublist _ _))
      (pairwise_sortDesc st.threads)
  · rw [pageOf]
    cases rawPage q with
    | none => simp [clampPage]
    | some v =>
      rw [clampPage]
      by_cases hv : v > 1
      · rw [if_pos hv]
        omega
      · rw [if_neg hv]
  · intro v hv hle
    rw [pageOf, hv, clampPage, if_neg (by omega)]

/-- Witness for C4 at a concrete query and store. -/
theorem findAll_paging_witness :
    1 ≤ pageOf (PageQuery.str "2") ∧
    findAll (PageQuery.str "0") threadStore = findAll (PageQuery.str "1") threadStore :=
  ⟨(findAll_paging (PageQuery.str "2") threadStore).2.1,
    (findAll_paging (PageQuery.str "2") threadStore).2.2.2.2⟩

/-- C10: findAll derives the page by leading-integer parsing of the page
query string: an absent or non-string value, or a string with no leading
digits (`parseInt` gives `NaN`), all behave as page 1, while a numeric
prefix followed by junk is used as the page. -/
theorem findAll_page_parsing (st : Store) :
    findAll PageQuery.missing st = findAll (PageQuery.str "1") st ∧
    findAll PageQuery.other st = findAll (PageQuery.str "1") st ∧
    (∀ s, jsParseInt s = none →
      findAll (PageQuery.str s) st = findAll PageQuery.missing st) ∧
    jsParseInt "3abc" = some 3 ∧
    jsParseInt "abc" = none ∧
    pageOf (PageQuery.str "3abc") = 3 ∧
    findAll (PageQuery.str "3abc") st = findAll (PageQuery.str "3") st := by
  refine ⟨rfl, rfl, ?_, rfl, rfl, rfl, rfl⟩
  intro s hs
  simp [findAll, pageOf, rawPage, hs, clampPage]

/-- Witness for C10 at a concrete store and the junk string `"abc"`. -/
theorem findAll_page_parsing_witness :
    jsParseInt "abc" = none ∧
    findAll (PageQuery.str "abc") threadStore = findAll PageQuery.missing threadStore :=
  ⟨rfl, (findAll_page_parsing threadStore).2.2.1 "abc" rfl⟩

/-- C5 counterexample: adding with the empty-string image `""` succeeds,
but findOne on the generated id returns the thread with the image stored
as absent, not as the supplied `""`: `if (image)` (line 40) drops a falsy
image, so the round-trip does not return the supplied image. -/
theorem add_findOne_roundtrip_counterexample :
    (findOne validId
        (add "u1" ⟨"hello", some "", none⟩ validId true userStore).store).resp =
      Resp.success 200 "Find One Thread Success"
        (some (RespData.thread ⟨validId, "hello", none, "u1", 0⟩)) ∧
    (⟨validId, "hello", none, "u1", 0⟩ : ThreadRow).image ≠ some "" :=
  ⟨by rfl, by simp⟩

/-- C5 (amended): for every add call that succeeds and whose image input
is not the falsy empty string, findOne on the identifier generated by
that add returns a thread whose content and image equal the input. -/
theorem add_findOne_roundtrip (a : String) (b : AddBody) (n : String)
    (ok : Bool) (st : Store) (u : UserRow)
    (hu : findUser st.users a = some u)
    (hid : uuidV4Test n = true)
    (himg : b.image ≠ some "") :
    ∃ t : ThreadRow,
      (findOne n (add a b n ok st).store).resp =
        Resp.success 200 "Find One Thread Success" (some (RespData.thread t)) ∧
      t.content = b.content ∧ t.image = b.image := by
  refine ⟨newThread b n u.id st.clock, ?_, rfl, ?_⟩
  · have hrow : findRow (add a b n ok st).store.threads n =
        some (newThread b n u.id st.clock) := by
      rw [add_threads a b n ok st u hu]
      exact findRow_saveRow_self st.threads (newThread b n u.id st.clock)
    simp [findOne, hid, hrow]
  · cases hbi : b.image with
    | none => simp [newThread, truthy, hbi]
    | some s =>
      have hs : (s == "") = false := by
        rw [beq_eq_false_iff_ne]
        intro he
        exact himg (by rw [hbi, he])
      simp [newThread, truthy, hbi, hs]

/-- Witness for C5 (amended) at a concrete user, body and id. -/
theorem add_findOne_roundtrip_witness :
    findUser userStore.users "u1" = some sampleUser ∧
    uuidV4Test validId = true ∧
    (⟨"hello", some "pic.png", none⟩ : AddBody).image ≠ some "" ∧
    ∃ t : ThreadRow,
      (findOne validId
          (add "u1" ⟨"hello", some "pic.png", none⟩ validId true userStore).store).resp =
        Resp.success 200 "Find One Thread Success" (some (RespData.thread t)) ∧
      t.content = "hello" ∧ t.image = some "pic.png" :=
  ⟨rfl, by rfl, by simp,
    add_findOne_roundtrip "u1" ⟨"hello", some "pic.png", none⟩ validId true
      userStore sampleUser rfl (by rfl) (by simp)⟩

/-- C7: in add, an Upload is deleted at most once; with no `uploadId` no
Upload deletion is issued; a deletion, when issued, comes strictly after
the Thread write in the access trace; and when the deletion fails the
response is the server error yet the new Thread row is still persisted
(no rollback). -/
theorem add_upload_delete_discipline (a : String) (b : AddBody) (n : String)
    (ok : Bool) (st : Store) :
    (add a b n ok st).trace.countP isUploadDel ≤ 1 ∧
    (b.uploadId = none →
      (add a b n ok st).trace.countP isUploadDel = 0) ∧
    (∀ u₀, Ev.uploadDelete u₀ ∈ (add a b n ok st).trace →
      (add a b n ok st).trace =
        [Ev.userRead a, Ev.threadWrite n, Ev.uploadDelete u₀]) ∧
    ((add a b n ok st).resp = Resp.serverError →
      ∃ u, findUser st.users a = some u ∧
        findRow (add a b n ok st).store.threads n =
          some (newThread b n u.id st.clock)) := by
  cases hu : findUser st.users a with
  | none =>
    simp [add, hu, List.countP_cons, List.countP_nil, isUploadDel]
  | some u =>
    have hth : (add a b n ok st).store.threads =
        saveRow (newThread b n u.id st.clock) st.threads :=
      add_threads a b n ok st u hu
    have hpersist : findRow (add a b n ok st).store.threads n =
        some (newThread b n u.id st.clock) := by
      rw [hth]
      exact findRow_saveRow_self st.threads (newThread b n u.id st.clock)
    cases hup : b.uploadId with
    | none =>
      simp [add, hu, hup, List.countP_cons, List.countP_nil, isUploadDel]
    | some v =>
      cases hv : v == "" with
      | true =>
        simp [add, hu, hup, hv, List.countP_cons, List.countP_nil, isUploadDel]
      | false =>
        cases ok with
        | true =>
          refine ⟨?_, ?_, ?_, ?_⟩
          · simp [add, hu, hup, hv, List.countP_cons, List.countP_nil, isUploadDel]
          · intro habs
            simp at habs
          · intro u₀ hmem
            rw [add, hu] at hmem ⊢
            simp only [hup, hv] at hmem ⊢
            simp at hmem
            simp [hmem]
          · intro habs
            rw [add, hu] at habs
            simp only [hup, hv] at habs
            simp at habs
        | false =>
          refine ⟨?_, ?_, ?_, ?_⟩
          · simp [add, hu, hup, hv, List.countP_cons, List.countP_nil, isUploadDel]
          · intro habs
            simp at habs
          · intro u₀ hmem
            rw [add, hu] at hmem ⊢
            simp only [hup, hv] at hmem ⊢
            simp at hmem
            simp [hmem]
          · intro _
            exact ⟨u, rfl, hpersist⟩

/-- Witness for C7: a concrete add whose Upload deletion fails, with the
Thread write still persisted. -/
theorem add_upload_delete_discipline_witness :
    (add "u1" ⟨"hi", none, some "up1"⟩ validId false userStore).resp =
        Resp.serverError →
      ∃ u, findUser userStore.users "u1" = some u ∧
        findRow (add "u1" ⟨"hi", none, some "up1"⟩ validId false userStore).store.threads
            validId =
          some (newThread ⟨"hi", none, some "up1"⟩ validId u.id userStore.clock) :=
  (add_upload_delete_discipline "u1" ⟨"hi", none, some "up1"⟩ validId false
    userStore).2.2.2

/-- C8: a successful updateOne overwrites only `content`: the target row
keeps its identifier, owner, image and creation stamp, every other
Thread row and every other table are untouched; and no operation ever
reassigns the owner of an existing Thread (updateOne preserves every
row's owner, deleteOne only removes, add only touches the created id,
findOne and findAll do not write). -/
theorem updateOne_content_only (tid c : String) (st : Store) (t : ThreadRow)
    (hv : uuidV4Test tid = true) (hf : findRow st.threads tid = some t) :
    ((updateOne tid c st).resp = Resp.success 200 "Update One Thread Success" none ∧
      (updateOne tid c st).store.users = st.users ∧
      (updateOne tid c st).store.likes = st.likes ∧
      (updateOne tid c st).store.replies = st.replies ∧
      (updateOne tid c st).store.uploads = st.uploads ∧
      (updateOne tid c st).store.clock = st.clock ∧
      ∃ pre post, st.threads = pre ++ t :: post ∧
        (updateOne tid c st).store.threads =
          pre ++ { t with content := c } :: post) ∧
    (∀ (tid₂ c₂ : String) (st₂ : Store) (i : String),
      (findRow (updateOne tid₂ c₂ st₂).store.threads i).map ThreadRow.userId =
        (findRow st₂.threads i).map ThreadRow.userId) ∧
    (∀ (tid₂ : String) (st₂ : Store) (i : String),
      findRow (deleteOne tid₂ st₂).store.threads i = findRow st₂.threads i ∨
        findRow (deleteOne tid₂ st₂).store.threads i = none) ∧
    (∀ (a : String) (b : AddBody) (n : String) (ok : Bool) (st₂ : Store)
        (i : String), i ≠ n →
      findRow (add a b n ok st₂).store.threads i = findRow st₂.threads i) ∧
    (∀ (tid₂ : String) (st₂ : Store), (findOne tid₂ st₂).store = st₂) ∧
    (∀ (q : PageQuery) (st₂ : Store), (findAll q st₂).store = st₂) := by
  have hst : (updateOne tid c st).store =
      { st with threads := saveRow { t with content := c } st.threads } := by
    simp [updateOne, hv, hf]
  have hresp : (updateOne tid c st).resp =
      Resp.success 200 "Update One Thread Success" none := by
    simp [updateOne, hv, hf]
  refine ⟨⟨hresp, by rw [hst], by rw [hst], by rw [hst], by rw [hst],
      by rw [hst], ?_⟩, ?_, ?_, ?_, ?_, ?_⟩
  · obtain ⟨pre, post, h1, h2⟩ :=
      saveRow_decomp st.threads tid t { t with content := c } hf rfl
    exact ⟨pre, post, h1, by rw [hst]; exact h2⟩
  · intro tid₂ c₂ st₂ i
    cases hv₂ : uuidV4Test tid₂ with
    | false => simp [updateOne, hv₂]
    | true =>
      cases hf₂ : findRow st₂.threads tid₂ with
      | none => simp [updateOne, hv₂, hf₂]
      | some t₂ =>
        have hst₂ : (updateOne tid₂ c₂ st₂).store.threads =
            saveRow { t₂ with content := c₂ } st₂.threads := by
          simp [updateOne, hv₂, hf₂]
        rw [hst₂]
        by_cases hi : i = t₂.id
        · subst hi
          have h1 : findRow (saveRow { t₂ with content := c₂ } st₂.threads)
              t₂.id = some { t₂ with content := c₂ } :=
            findRow_saveRow_self st₂.threads { t₂ with content := c₂ }
          have hti : t₂.id = tid₂ := findRow_id _ _ _ hf₂
          rw [h1, hti, hf₂]
          rfl
        · exact congrArg (Option.map ThreadRow.userId)
            (findRow_saveRow_ne st₂.threads _ i hi)
  · intro tid₂ st₂ i
    cases hv₂ : uuidV4Test tid₂ with
    | false => left; simp [deleteOne, hv₂]
    | true =>
      cases hf₂ : findRow st₂.threads tid₂ with
      | none => left; simp [deleteOne, hv₂, hf₂]
      | some t₂ =>
        have hst₂ : (deleteOne tid₂ st₂).store.threads =
            deleteRow st₂.threads tid₂ := by
          simp [deleteOne, hv₂, hf₂]
        by_cases hi : i = tid₂
        · right
          rw [hst₂, hi]
          exact findRow_deleteRow_self _ _
        · left
          rw [hst₂]
          exact findRow_deleteRow_ne _ _ _ hi
  · intro a b n ok st₂ i hin
    cases hu : findUser st₂.users a with
    | none => simp [add, hu]
    | some u =>
      rw [add_threads a b n ok st₂ u hu]
      exact findRow_saveRow_ne _ _ _ hin
  · intro tid₂ st₂
    cases hv₂ : uuidV4Test tid₂ with
    | false => simp [findOne, hv₂]
    | true =>
      cases hf₂ : findRow st₂.threads tid₂ with
      | none => simp [findOne, hv₂, hf₂]
      | some t₂ => simp [findOne, hv₂, hf₂]
  · intro q st₂
    rfl

/-- Witness for C8 at a concrete store holding one thread. -/
theorem updateOne_content_only_witness :
    uuidV4Test validId = true ∧
    findRow threadStore.threads validId = some sampleThread ∧
    (updateOne validId "new content" threadStore).resp =
      Resp.success 200 "Update One Thread Success" none ∧
    (updateOne validId "new content" threadStore).store.users = threadStore.users :=
  ⟨by rfl, rfl,
    (updateOne_content_only validId "new content" threadStore sampleThread
      (by rfl) rfl).1.1,
    (updateOne_content_only validId "new content" threadStore sampleThread
      (by rfl) rfl).1.2.1⟩

/-- C9: deleting twice on the same id with a thread initially present
succeeds (HTTP 200) the first time, leaves no row with that id in the
store, and the second call returns NotFound and changes nothing. -/
theorem deleteOne_idempotent (tid : String) (st : Store) (t : ThreadRow)
    (hv : uuidV4Test tid = true) (hf : findRow st.threads tid = some t) :
    (deleteOne tid st).resp = Resp.success 200 "Delete One Thread Success" none ∧
    (∀ r ∈ (deleteOne tid st).store.threads, r.id ≠ tid) ∧
    findRow (deleteOne tid st).store.threads tid = none ∧
    (deleteOne tid (deleteOne tid st).store).resp = threadNotFoundResp tid ∧
    (deleteOne tid (deleteOne tid st).store).store = (deleteOne tid st).store := by
  have hst : (deleteOne tid st).store =
      { st with threads := deleteRow st.threads tid } := by
    simp [deleteOne, hv, hf]
  have hresp : (deleteOne tid st).resp =
      Resp.success 200 "Delete One Thread Success" none := by
    simp [deleteOne, hv, hf]
  have hnone : findRow (deleteOne tid st).store.threads tid = none := by
    rw [hst]
    exact findRow_deleteRow_self _ _
  refine ⟨hresp, ?_, hnone, ?_, ?_⟩
  · intro r hr
    rw [hst] at hr
    exact (mem_deleteRow _ _ _ hr).2
  · revert hnone
    generalize (deleteOne tid st).store = st1
    intro hnone
    simp [deleteOne, hv, hnone]
  · revert hnone
    generalize (deleteOne tid st).store = st1
    intro hnone
    simp [deleteOne, hv, hnone]

/-- Witness for C9 at a concrete store holding one thread. -/
theorem deleteOne_idempotent_witness :
    uuidV4Test validId = true ∧
    findRow threadStore.threads validId = some sampleThread ∧
    (deleteOne validId threadStore).resp =
      Resp.success 200 "Delete One Thread Success" none ∧
    (deleteOne validId (deleteOne validId threadStore).store).resp =
      threadNotFoundResp validId :=
  ⟨by rfl, rfl,
    (deleteOne_idempotent validId threadStore sampleThread (by rfl) rfl).1,
    (deleteOne_idempotent validId threadStore sampleThread (by rfl) rfl).2.2.2.1⟩

end CircleApi
